import Mathlib

/-!
Verification of the scope-resolution pass in
`src/jaclang/jac/passes/blue/sym_tab_build_pass.py`.

The pass is a depth-first AST traversal with an explicit scope stack
(`self.cur_sym_tab`, a Python list of `SymbolTable` objects whose last
element is the active scope).  We embed it as a pure interpreter over an
AST type covering the scope-relevant node kinds; the roughly seventy
handlers that only call `sync_node_to_scope` are collapsed into a single
`otherNd` kind, since their bodies are identical.

Python `SymbolTable` objects have identity and are mutated in place, so
tables live in an arena (`tables : List SymbolTable`) and the scope stack
holds arena indices; the head of the Lean list is the top of the stack
(the last element of the Python list).  A Python `IndexError`
(`list.pop()` on an empty list, `v.defn[-1]` on an empty list,
`names[-1]` on an empty list) is modelled by the `crashed` flag, which
freezes the state.  The `inserts` and `bindings` fields are ghost logs
recording, in order, every `SymbolTable.insert` call and every
`sync_node_to_scope` stamp performed by the pass; they exist only to let
theorems observe which operations happened and are appended to by
exactly the operations that correspond to those source calls.
-/

namespace JacPass

/-- Kind tag for a symbol-table insertion, mirroring `SymbolHitType`
(imported by the pass from `jaclang.jac.symtable`). -/
inductive SymbolHitType where
  | DECL
  | DEFN
deriving DecidableEq, Repr

/-- The projection of an AST node that the pass actually consumes when it
stores the node in a symbol table or formats a diagnostic: an identity,
`node.line`, and `node.mod_link.rel_mod_path` (absent when `mod_link` is
`None`). -/
structure NodeRef where
  nid : Nat
  line : Nat
  mod_link : Option String
deriving DecidableEq, Repr

/-- Modelled from the spec: the Symbol Record of §3/§4.2 (`Symbol` in
`jaclang/jac/symtable.py`, which is not under src/): an optional single
declaring occurrence and an ordered list of defining occurrences. -/
structure Symbol where
  decl : Option NodeRef
  defn : List NodeRef
deriving DecidableEq, Repr

/-- Modelled from the spec: the Scope Table of §3 (`SymbolTable` in
`jaclang/jac/symtable.py`, not under src/): an insertion-ordered mapping
from name to Symbol Record plus an optional link to the lexically
enclosing table (here an arena index). -/
structure SymbolTable where
  parent : Option Nat
  tab : List (String × Symbol)
deriving DecidableEq, Repr

/-- Look a name up in an insertion-ordered association list. -/
def tabLookup : List (String × Symbol) → String → Option Symbol
  | [], _ => none
  | (k, v) :: rest, name => if k = name then some v else tabLookup rest name

/-- Update a name in place when present, else append it, preserving
insertion order (Python `dict` assignment). -/
def tabSet : List (String × Symbol) → String → Symbol → List (String × Symbol)
  | [], name, s => [(name, s)]
  | (k, v) :: rest, name, s =>
    if k = name then (k, s) :: rest else (k, v) :: tabSet rest name s

/-- Modelled from the spec: the "existing occupant" §4.2 has `insert`
return on a conflict — the record's prior declaration node if set, else
its most recent definitions entry — or `none` when the name is absent
from the table. -/
def occupantOf (t : SymbolTable) (name : String) : Option NodeRef :=
  match tabLookup t.tab name with
  | none => none
  | some s =>
    match s.decl with
    | some d => some d
    | none => s.defn.getLast?

/-- Modelled from the spec: `SymbolTable.insert` of §4.2 (the method lives
in `jaclang/jac/symtable.py`, not under src/).  With `single = true`
(enforce_unique) and the name already present, the existing occupant is
returned as a conflict and the record is not mutated — the language
forbids two same-named bindings in one scope whether both are
declarations, both definitions, or one of each, so each record keeps one
occurrence total; with the name absent the declaration slot is populated
or the definition appended.  With `single = false` the requested slot is
filled without any check (multiplicity permitted, unused by this
pass). -/
def SymbolTable.insert (t : SymbolTable) (name : String) (sym_hit : SymbolHitType)
    (node : NodeRef) (single : Bool) : Option NodeRef × SymbolTable :=
  match (if single then occupantOf t name else none) with
  | some c => (some c, t)
  | none =>
    let s0 := (tabLookup t.tab name).getD ⟨none, []⟩
    let s1 : Symbol :=
      match sym_hit with
      | .DECL => { s0 with decl := some node }
      | .DEFN => { s0 with defn := s0.defn ++ [node] }
    (none, { t with tab := tabSet t.tab name s1 })

/-- Ghost record of one `insert` call performed against the scope that was
active at the time: which arena slot, key, kind, stored node, and the
conflict (existing occupant) the call reported, if any. -/
structure InsertEvent where
  scope : Nat
  name : String
  hit : SymbolHitType
  node : NodeRef
  collide : Option NodeRef
deriving DecidableEq, Repr

/-- The pass state: the arena of scope tables, the scope stack
(`cur_sym_tab`, head = top), the diagnostics emitted through
`self.error`, the internal-compiler-error log (`self.ice`, modelled from
the spec's §7 as a distinguishable diagnostic class), the ghost logs, and
the crash flag for an uncaught Python `IndexError`. -/
structure PassState where
  tables : List SymbolTable
  stack : List Nat
  errors : List String
  iceLog : List String
  bindings : List (Nat × Nat)
  inserts : List InsertEvent
  crashed : Bool
deriving DecidableEq, Repr

/-- The state `before_pass` sets up: `self.cur_sym_tab = [SymbolTable()]`,
one fresh parentless table on the stack. -/
def before_pass : PassState :=
  { tables := [⟨none, []⟩], stack := [0], errors := [], iceLog := [],
    bindings := [], inserts := [], crashed := false }

/-- Modelled from the spec: `Pass.ice` (pass framework, not under src/)
records an internal-compiler-error diagnostic and, per §7's propagation
policy, traversal continues. -/
def ice (p : PassState) : PassState :=
  if p.crashed then p else { p with iceLog := p.iceLog ++ ["ICE"] }

/-- Modelled from the spec: `Pass.error` (pass framework, not under src/)
appends one message to the diagnostics sink. -/
def errAdd (p : PassState) (msg : String) : PassState :=
  if p.crashed then p else { p with errors := p.errors ++ [msg] }

/-- Source `push_scope`: with `fresh` a brand-new parentless table, else a
child of the current active scope (`self.cur_sym_tab[-1].push_scope()`,
whose child-creation behaviour is §4.1's `push_nested`); either way the
new table becomes the top of the stack.  Reading `cur_sym_tab[-1]` on an
empty stack would raise. -/
def push_scope (p : PassState) (fresh : Bool) : PassState :=
  if p.crashed then p else
  if fresh then
    { p with tables := p.tables ++ [⟨none, []⟩], stack := p.tables.length :: p.stack }
  else
    match p.stack with
    | [] => { p with crashed := true }
    | top :: _ =>
      { p with tables := p.tables ++ [⟨some top, []⟩], stack := p.tables.length :: p.stack }

/-- Source `pop_scope`: a bare Python `self.cur_sym_tab.pop()` — it drops
the top element, raising only when the list is already empty. -/
def pop_scope (p : PassState) : PassState :=
  if p.crashed then p else
  match p.stack with
  | [] => { p with crashed := true }
  | _ :: rest => { p with stack := rest }

/-- Source `sync_node_to_scope`: stamp the node with the currently active
scope (`node.sym_tab = self.cur_scope()`); recorded in the ghost binding
log as (node id, arena index of the active table). -/
def sync_node_to_scope (p : PassState) (node : NodeRef) : PassState :=
  if p.crashed then p else
  match p.stack with
  | [] => { p with crashed := true }
  | top :: _ => { p with bindings := p.bindings ++ [(node.nid, top)] }

/-- An `insert` call against the current scope
(`self.cur_scope().insert(...)` with `single=True`), returning the
collision the table reported and logging the call as a ghost event. -/
def insertCur (p : PassState) (name : String) (hit : SymbolHitType)
    (node : NodeRef) : Option NodeRef × PassState :=
  if p.crashed then (none, p) else
  match p.stack with
  | [] => (none, { p with crashed := true })
  | top :: _ =>
    match p.tables.get? top with
    | none => (none, { p with crashed := true })
    | some t =>
      let res := t.insert name hit node true
      (res.1, { p with tables := p.tables.set top res.2,
                       inserts := p.inserts ++ [⟨top, name, hit, node, res.1⟩] })

/-- The site a diagnostic cites for a node: `rel_mod_path` of its module
link when present (the `else self.ice()` branch contributes the empty
path; the ICE itself is recorded in `iceLog` by the caller). -/
def siteOf (n : NodeRef) : String := n.mod_link.getD ""

/-- A single quote character, used by the duplicate-binding message. -/
def quoteStr : String := String.singleton (Char.ofNat 39)

/-- The message built by `already_declared_err`:
`f"Name used for {typ} '{name}' already declared at {mod_path}, line {line}"`
followed, for each extra node, by `f", {mod_path}, line {line}"`. -/
def dupMsg (name typ : String) (original : NodeRef) (others : List NodeRef) : String :=
  others.foldl
    (fun acc n => acc ++ ", " ++ siteOf n ++ ", line " ++ toString n.line)
    ("Name used for " ++ typ ++ " " ++ quoteStr ++ name ++ quoteStr ++
      " already declared at " ++ siteOf original ++ ", line " ++ toString original.line)

/-- Source `already_declared_err`: formats the duplicate-binding message
from the original occupant plus any extra nodes and emits it through
`self.error`; a node whose `mod_link` is missing triggers `self.ice`
(modelled: an entry in `iceLog` and an empty path in the message). -/
def already_declared_err (p : PassState) (name typ : String)
    (original : NodeRef) (other_nodes : List NodeRef) : PassState :=
  if p.crashed then p else
  errAdd
    (other_nodes.foldl (fun acc n => if n.mod_link.isSome then acc else ice acc)
      (if original.mod_link.isSome then p else ice p))
    (dupMsg name typ original other_nodes)

/-- One `ast.Assignment` descendant of a `GlobalVars` node as
`enter_global_vars` consumes it (via `get_all_sub_nodes(node,
ast.Assignment)`, pass-framework code not under src/, modelled as the
node carrying its assignment descendants in order): the assignment node
itself and, when `i.target` is an `ast.Name`, that name's value. -/
structure Assign where
  ref : NodeRef
  target : Option String
deriving DecidableEq, Repr

/-- One `ast.ModuleItem` as `enter_import` consumes it. -/
structure ImportItem where
  name : String
  aliasName : Option String
deriving DecidableEq, Repr

/-- The fields of an `ast.Import` node the two import handlers read.
`sub_module_tab` is the root table of the already-resolved sub-module;
`none` collapses the source's two failure tests (`not node.sub_module or
not node.sub_module.sym_tab`). -/
structure ImportData where
  path_str : String
  items : Option (List ImportItem)
  is_absorb : Bool
  sub_module_tab : Option (List (String × Symbol))
deriving DecidableEq, Repr

/-- What `enter_ability` reads of `node.arch_attached.parent`: either an
`ast.Architype` with its name value, or anything else (including a
missing parent), which fails the `isinstance` test. -/
inductive ParentNode where
  | arch (name : String)
  | otherParent
deriving DecidableEq, Repr

/-- The fields of an `ast.Ability` node the pass reads: the result of
`node.py_resolve_name()` (name resolution of special forms happens on the
AST class, outside src/, so the resolved string is carried as data), and
the parent of `node.arch_attached` when that link is set. -/
structure AbilityData where
  resolvedName : String
  arch_attached : Option ParentNode
deriving DecidableEq, Repr

/-- One element of an `ast.AbilityDef` target's `names` list: an
`ast.ArchRef` carrying its `py_resolve_name()` result, or any other
element kind (which fails the `isinstance(owner, ast.ArchRef)` test). -/
inductive TargetElem where
  | archRef (resolved : String)
  | otherName
deriving DecidableEq, Repr

/-- The fields of an `ast.AbilityDef` node the pass reads. -/
structure AbilityDefData where
  abilityResolved : String
  target : Option (List TargetElem)
deriving DecidableEq, Repr

/-- The AST restricted to the node kinds whose handlers touch the scope
stack or a symbol table; every other handler in the source consists of
the single call `self.sync_node_to_scope(node)` and is represented by
`otherNd`.  Each constructor carries the node's children in source
order. -/
inductive ANode where
  | module_ (info : NodeRef) (kids : List ANode)
  | test (info : NodeRef) (name : Option String) (kids : List ANode)
  | moduleCode (info : NodeRef) (kids : List ANode)
  | globalVars (info : NodeRef) (assigns : List Assign) (kids : List ANode)
  | importNd (info : NodeRef) (d : ImportData) (kids : List ANode)
  | architype (info : NodeRef) (name : String) (kids : List ANode)
  | archDef (info : NodeRef) (kids : List ANode)
  | ability (info : NodeRef) (d : AbilityData) (kids : List ANode)
  | abilityDef (info : NodeRef) (d : AbilityDefData) (kids : List ANode)
  | enumNd (info : NodeRef) (name : String) (kids : List ANode)
  | enumDef (info : NodeRef) (kids : List ANode)
  | otherNd (info : NodeRef) (kids : List ANode)

/-- The walrus-and-report idiom shared by every inserting handler:
`if collide := self.cur_scope().insert(...): self.already_declared_err(...)`
with the handler's construct label. -/
def insertAndReport (p : PassState) (key typ : String) (hit : SymbolHitType)
    (node : NodeRef) : PassState :=
  let res := insertCur p key hit node
  match res.1 with
  | some c => already_declared_err res.2 key typ c []
  | none => res.2

/-- The common tail of every scope-owning enter handler:
`self.push_scope()` followed by `self.sync_node_to_scope(node)`. -/
def pushAndSync (p : PassState) (node : NodeRef) : PassState :=
  sync_node_to_scope (push_scope p false) node

/-- Source `enter_module`: push a fresh scope, then stamp the node. -/
def enter_module (p : PassState) (info : NodeRef) : PassState :=
  sync_node_to_scope (push_scope p true) info

/-- Source `exit_module`: pop. -/
def exit_module (p : PassState) : PassState := pop_scope p

/-- Source `enter_test`: when named, insert the name as a DECL carrying
the Test node (reporting a duplicate with label "test" on collision);
then push a nested scope and stamp the node. -/
def enter_test (p : PassState) (info : NodeRef) (name : Option String) : PassState :=
  pushAndSync
    (match name with
     | none => p
     | some s => insertAndReport p s "test" .DECL info)
    info

/-- Source `exit_test`: pop. -/
def exit_test (p : PassState) : PassState := pop_scope p

/-- Source `enter_module_code`: push a nested scope, stamp the node. -/
def enter_module_code (p : PassState) (info : NodeRef) : PassState :=
  pushAndSync p info

/-- Source `exit_module_code`: pop. -/
def exit_module_code (p : PassState) : PassState := pop_scope p

/-- Source `enter_global_vars`: for every Assignment sub-node, `ice` when
its target is not a Name, else insert the target name as a DECL carrying
the assignment node, reporting duplicates with label "global var"; then
stamp the node. -/
def enter_global_vars (p : PassState) (info : NodeRef) (assigns : List Assign) : PassState :=
  sync_node_to_scope
    (assigns.foldl
      (fun acc a =>
        match a.target with
        | none => ice acc
        | some v => insertAndReport acc v "global var" .DECL a.ref)
      p)
    info

/-- Source `enter_import`: for each listed item, insert its alias-or-name
as a DECL carrying the Import node, reporting duplicates with label
"import item"; then stamp the node. -/
def enter_import (p : PassState) (info : NodeRef) (d : ImportData) : PassState :=
  sync_node_to_scope
    (match d.items with
     | none => p
     | some its =>
       its.foldl
         (fun acc it => insertAndReport acc (it.aliasName.getD it.name) "import item" .DECL info)
         p)
    info

/-- The node argument `exit_import` passes to `insert` for an absorbed
record: `v.decl if v.decl else v.defn[-1]` — the `[-1]` access has no
emptiness guard, so `none` here stands for the `IndexError` raised when
the record has neither a declaration nor a definition. -/
def absorbInsertNode (v : Symbol) : Option NodeRef :=
  match v.decl with
  | some d => some d
  | none => v.defn.getLast?

/-- The supplementary node `exit_import` computes on a collision:
`v.decl if v.decl else v.defn[-1] if len(v.defn) else None` — the guarded
variant, whose `none` is a legitimate value rather than a crash. -/
def absorbOtherNode (v : Symbol) : Option NodeRef :=
  match v.decl with
  | some d => some d
  | none => if v.defn.length ≠ 0 then v.defn.getLast? else none

/-- The body of `exit_import`'s absorption loop for one `(k, v)` entry of
the sub-module's root table: insert `k` into the importer's active scope
as DECL-with-declaration-node when the record has a declaration, else
DEFN-with-last-definition-node; on a collision report against the
existing occupant, citing the absorbed occurrence too when available. -/
def absorbRecord (p : PassState) (k : String) (v : Symbol) : PassState :=
  if p.crashed then p else
  match absorbInsertNode v with
  | none => { p with crashed := true }
  | some nodeArg =>
    let hit : SymbolHitType := if v.decl.isSome then .DECL else .DEFN
    let res := insertCur p k hit nodeArg
    match res.1 with
    | none => res.2
    | some c =>
      match absorbOtherNode v with
      | some o => already_declared_err res.2 k "include item" c [o]
      | none => already_declared_err res.2 k "include item" c []

/-- The whole absorption loop over the sub-module's root table. -/
def absorbAll (p : PassState) (tab : List (String × Symbol)) : PassState :=
  tab.foldl (fun acc kv => absorbRecord acc kv.1 kv.2) p

/-- The message `exit_import` emits for an unresolved absorb target. -/
def notFoundMsg (path : String) : String :=
  "Module " ++ path ++ " not found to include *, or ICE occurred!"

/-- Source `exit_import`: for an absorb import, either report the
unresolved sub-module or run the absorption loop; finally stamp the
node. -/
def exit_import (p : PassState) (info : NodeRef) (d : ImportData) : PassState :=
  let p1 :=
    if d.is_absorb then
      match d.sub_module_tab with
      | none => errAdd p (notFoundMsg d.path_str)
      | some tab => absorbAll p tab
    else p
  sync_node_to_scope p1 info

/-- Source `enter_architype`: insert the type name as a DECL carrying the
node (label "architype" on collision), push a nested scope, stamp. -/
def enter_architype (p : PassState) (info : NodeRef) (name : String) : PassState :=
  pushAndSync (insertAndReport p name "architype" .DECL info) info

/-- Source `exit_architype`: pop. -/
def exit_architype (p : PassState) : PassState := pop_scope p

/-- Source `enter_arch_def`: only `sync_node_to_scope` — an out-of-body
type-implementation block pushes no scope and inserts nothing. -/
def enter_arch_def (p : PassState) (info : NodeRef) : PassState :=
  sync_node_to_scope p info

/-- Source `resolve_ability_symtab_name`: the owning type's name, a dot,
and the resolved simple name when the ability is attached to a block
whose parent is an Architype; otherwise the resolved simple name. -/
def resolve_ability_symtab_name (d : AbilityData) : String :=
  match d.arch_attached with
  | some (.arch nm) => nm ++ "." ++ d.resolvedName
  | _ => d.resolvedName

/-- Source `enter_ability`: insert the resolved key as a DECL carrying
the node (label "ability" on collision), push a nested scope, stamp. -/
def enter_ability (p : PassState) (info : NodeRef) (d : AbilityData) : PassState :=
  pushAndSync (insertAndReport p (resolve_ability_symtab_name d) "ability" .DECL info) info

/-- Source `exit_ability`: pop. -/
def exit_ability (p : PassState) : PassState := pop_scope p

/-- The tail of `enter_ability_def` shared by all key computations:
insert the key as a DEFN carrying the node (label "ability def" on
collision), push a nested scope, stamp. -/
def abilityDefInsert (p : PassState) (info : NodeRef) (key : String) : PassState :=
  pushAndSync (insertAndReport p key "ability def" .DEFN info) info

/-- Source `enter_ability_def`: with a target path, the owner is the last
path element; when it is not an ArchRef the pass reports "Expected
reference to Architype!" and sets `owner = ""`, and either way the key
becomes `f"{owner}.{ability_name}"`; without a target the key is the
resolved simple name.  `names[-1]` on an empty list raises. -/
def enter_ability_def (p : PassState) (info : NodeRef) (d : AbilityDefData) : PassState :=
  if p.crashed then p else
  match d.target with
  | none => abilityDefInsert p info d.abilityResolved
  | some names =>
    match names.getLast? with
    | none => { p with crashed := true }
    | some (.archRef s) => abilityDefInsert p info (s ++ "." ++ d.abilityResolved)
    | some .otherName =>
      abilityDefInsert (errAdd p "Expected reference to Architype!") info
        ("" ++ "." ++ d.abilityResolved)

/-- Source `exit_ability_def`: pop. -/
def exit_ability_def (p : PassState) : PassState := pop_scope p

/-- Source `enter_enum`: insert the enum name as a DECL carrying the node
(label "enum" on collision), push a nested scope, stamp.  The source
defines no `exit_enum`, so the scope pushed here is never popped. -/
def enter_enum (p : PassState) (info : NodeRef) (name : String) : PassState :=
  pushAndSync (insertAndReport p name "enum" .DECL info) info

/-- Source `enter_enum_def`: only `sync_node_to_scope` — an out-of-body
enum-implementation block pushes no scope and inserts nothing. -/
def enter_enum_def (p : PassState) (info : NodeRef) : PassState :=
  sync_node_to_scope p info

mutual

/-- The traversal driver's visit of one node (pass framework, contract
per §5: enter hook, children left to right, exit hook; a node kind
without a handler gets a no-op).  Only the kinds listed here have an
exit handler in the source; note the absence of an exit hook for
`enumNd`. -/
def runNode (p : PassState) (n : ANode) : PassState :=
  match n with
  | .module_ info kids => exit_module (runNodes (enter_module p info) kids)
  | .test info nm kids => exit_test (runNodes (enter_test p info nm) kids)
  | .moduleCode info kids => exit_module_code (runNodes (enter_module_code p info) kids)
  | .globalVars info assigns kids => runNodes (enter_global_vars p info assigns) kids
  | .importNd info d kids => exit_import (runNodes (enter_import p info d) kids) info d
  | .architype info nm kids => exit_architype (runNodes (enter_architype p info nm) kids)
  | .archDef info kids => runNodes (enter_arch_def p info) kids
  | .ability info d kids => exit_ability (runNodes (enter_ability p info d) kids)
  | .abilityDef info d kids => exit_ability_def (runNodes (enter_ability_def p info d) kids)
  | .enumNd info nm kids => runNodes (enter_enum p info nm) kids
  | .enumDef info kids => runNodes (enter_enum_def p info) kids
  | .otherNd info kids => runNodes (sync_node_to_scope p info) kids

/-- Visit a list of children in order. -/
def runNodes (p : PassState) (ns : List ANode) : PassState :=
  match ns with
  | [] => p
  | n :: rest => runNodes (runNode p n) rest

end

/-- Run the pass on a module AST from the `before_pass` state. -/
def runPass (m : ANode) : PassState := runNode before_pass m

/-- A state is well formed when it has not crashed, the scope stack is
non-empty, and every stack entry indexes into the arena — all true of
`before_pass` and preserved by the traversal. -/
def WFState (p : PassState) : Prop :=
  p.crashed = false ∧ p.stack ≠ [] ∧ ∀ i ∈ p.stack, i < p.tables.length

/-- A module whose body is a single enum declaration `E`. -/
def enumOnlyModule : ANode :=
  .module_ ⟨0, 1, some "t.jac"⟩ [ .enumNd ⟨1, 2, some "t.jac"⟩ "E" [] ]

/-- A state whose scope stack has two entries, for exercising `pop_scope`. -/
def twoEntryState : PassState :=
  { tables := [⟨none, []⟩, ⟨some 0, []⟩], stack := [1, 0], errors := [],
    iceLog := [], bindings := [], inserts := [], crashed := false }

/-- An out-of-body ability definition for `talk` whose dotted target's
last segment is not an architype reference. -/
def badTargetData : AbilityDefData := ⟨"talk", some [.otherName]⟩

/-- The AbilityDef node carrying `badTargetData`. -/
def badTargetInfo : NodeRef := ⟨7, 9, some "m.jac"⟩

/-- A module declaring type `Foo` whose body holds ability `talk`,
followed by an out-of-body definition targeting `Foo.talk` (the
`otherNd` wrapper stands for the ArchBlock). -/
def fooTalkModule : ANode :=
  .module_ ⟨0, 1, some "m.jac"⟩ [
    .architype ⟨1, 2, some "m.jac"⟩ "Foo" [
      .otherNd ⟨2, 2, some "m.jac"⟩ [
        .ability ⟨3, 3, some "m.jac"⟩ ⟨"talk", some (.arch "Foo")⟩ []
      ]
    ],
    .abilityDef ⟨4, 6, some "m.jac"⟩ ⟨"talk", some [.archRef "Foo"]⟩ []
  ]

/-- A module with two global-variable declarations both named `x`, at
lines 1 and 2 of `m.jac`. -/
def dupGlobalsModule : ANode :=
  .module_ ⟨0, 1, some "m.jac"⟩ [
    .globalVars ⟨1, 1, some "m.jac"⟩ [⟨⟨2, 1, some "m.jac"⟩, some "x"⟩] [],
    .globalVars ⟨3, 2, some "m.jac"⟩ [⟨⟨4, 2, some "m.jac"⟩, some "x"⟩] []
  ]

/-- A symbol record carrying only a declaration occurrence. -/
def declOnlyRecord : Symbol := ⟨some ⟨11, 4, some "a.jac"⟩, []⟩

/-- An import marked absorb whose sub-module failed to resolve. -/
def unresolvedAbsorb : ImportData := ⟨"a.mod", none, true, none⟩

section Lemmas

/-- The `ice` helper touches only the internal-compiler-error log. -/
theorem ice_fields (p : PassState) :
    (ice p).tables = p.tables ∧ (ice p).stack = p.stack ∧ (ice p).errors = p.errors ∧
    (ice p).bindings = p.bindings ∧ (ice p).inserts = p.inserts ∧
    (ice p).crashed = p.crashed := by
  unfold ice; split <;> simp

/-- A fold of conditional `ice` calls touches only the ICE log. -/
theorem iceFold_fields (os : List NodeRef) (p : PassState) :
    ((os.foldl (fun acc n => if n.mod_link.isSome then acc else ice acc) p).tables = p.tables ∧
     (os.foldl (fun acc n => if n.mod_link.isSome then acc else ice acc) p).stack = p.stack ∧
     (os.foldl (fun acc n => if n.mod_link.isSome then acc else ice acc) p).errors = p.errors ∧
     (os.foldl (fun acc n => if n.mod_link.isSome then acc else ice acc) p).bindings = p.bindings ∧
     (os.foldl (fun acc n => if n.mod_link.isSome then acc else ice acc) p).inserts = p.inserts ∧
     (os.foldl (fun acc n => if n.mod_link.isSome then acc else ice acc) p).crashed = p.crashed) := by
  induction os generalizing p with
  | nil => simp
  | cons o rest ih =>
    simp only [List.foldl_cons]
    by_cases h : o.mod_link.isSome
    · rw [if_pos h]; exact ih p
    · rw [if_neg h]
      obtain ⟨a1, a2, a3, a4, a5, a6⟩ := ice_fields p
      obtain ⟨b1, b2, b3, b4, b5, b6⟩ := ih (ice p)
      exact ⟨b1.trans a1, b2.trans a2, b3.trans a3, b4.trans a4, b5.trans a5, b6.trans a6⟩

/-- The `errAdd` helper on an uncrashed state appends exactly one message
and leaves every other field alone. -/
theorem errAdd_fields (p : PassState) (m : String) (hc : p.crashed = false) :
    (errAdd p m).errors = p.errors ++ [m] ∧ (errAdd p m).tables = p.tables ∧
    (errAdd p m).stack = p.stack ∧ (errAdd p m).bindings = p.bindings ∧
    (errAdd p m).inserts = p.inserts ∧ (errAdd p m).crashed = false := by
  unfold errAdd; simp [hc]

/-- `already_declared_err` on an uncrashed state emits exactly the
formatted duplicate-binding message and leaves the scope stack, the
tables and the ghost logs alone. -/
theorem already_declared_err_fields (p : PassState) (name typ : String)
    (original : NodeRef) (others : List NodeRef) (hc : p.crashed = false) :
    (already_declared_err p name typ original others).errors
        = p.errors ++ [dupMsg name typ original others] ∧
    (already_declared_err p name typ original others).tables = p.tables ∧
    (already_declared_err p name typ original others).stack = p.stack ∧
    (already_declared_err p name typ original others).bindings = p.bindings ∧
    (already_declared_err p name typ original others).inserts = p.inserts ∧
    (already_declared_err p name typ original others).crashed = false := by
  unfold already_declared_err
  rw [if_neg (by simp [hc])]
  by_cases ho : original.mod_link.isSome
  · rw [if_pos ho]
    obtain ⟨f1, f2, f3, f4, f5, f6⟩ := iceFold_fields others p
    obtain ⟨g1, g2, g3, g4, g5, g6⟩ :=
      errAdd_fields _ (dupMsg name typ original others) (by rw [f6]; exact hc)
    exact ⟨by rw [g1, f3], by rw [g2, f1], by rw [g3, f2], by rw [g4, f4], by rw [g5, f5], g6⟩
  · rw [if_neg ho]
    obtain ⟨e1, e2, e3, e4, e5, e6⟩ := ice_fields p
    obtain ⟨f1, f2, f3, f4, f5, f6⟩ := iceFold_fields others (ice p)
    obtain ⟨g1, g2, g3, g4, g5, g6⟩ :=
      errAdd_fields _ (dupMsg name typ original others) (by rw [f6, e6]; exact hc)
    exact ⟨by rw [g1, f3, e3], by rw [g2, f1, e1], by rw [g3, f2, e2],
      by rw [g4, f4, e4], by rw [g5, f5, e5], g6⟩

/-- Reduction of `insertCur` on an uncrashed state with a valid top. -/
theorem insertCur_eq (p : PassState) (name : String) (hit : SymbolHitType) (node : NodeRef)
    (top : Nat) (rest : List Nat) (t : SymbolTable)
    (hc : p.crashed = false) (hs : p.stack = top :: rest) (ht : p.tables.get? top = some t) :
    insertCur p name hit node =
      ((t.insert name hit node true).1,
       { p with tables := p.tables.set top (t.insert name hit node true).2,
                inserts := p.inserts ++
                  [⟨top, name, hit, node, (t.insert name hit node true).1⟩] }) := by
  unfold insertCur
  rw [if_neg (by simp [hc]), hs]
  dsimp only
  rw [ht]

/-- On a well-formed state, an `insert` call logs exactly one event whose
fields repeat the call's arguments, leaves the stack, errors, bindings
and arena size alone, and does not crash. -/
theorem insertCur_fields (p : PassState) (name : String) (hit : SymbolHitType)
    (node : NodeRef) (hw : WFState p) :
    ∃ e : InsertEvent,
      (insertCur p name hit node).2.inserts = p.inserts ++ [e] ∧
      e.name = name ∧ e.hit = hit ∧ e.node = node ∧
      e.collide = (insertCur p name hit node).1 ∧
      (insertCur p name hit node).2.stack = p.stack ∧
      (insertCur p name hit node).2.errors = p.errors ∧
      (insertCur p name hit node).2.bindings = p.bindings ∧
      (insertCur p name hit node).2.tables.length = p.tables.length ∧
      (insertCur p name hit node).2.crashed = false := by
  obtain ⟨hc, hne, hin⟩ := hw
  obtain ⟨top, rest, hs⟩ : ∃ a l, p.stack = a :: l := by
    cases hstk : p.stack with
    | nil => exact absurd hstk hne
    | cons a l => exact ⟨a, l, rfl⟩
  have htop : top < p.tables.length := hin top (by rw [hs]; exact List.mem_cons_self _ _)
  obtain ⟨t, ht⟩ : ∃ t, p.tables.get? top = some t := ⟨_, List.get?_eq_get htop⟩
  rw [insertCur_eq p name hit node top rest t hc hs ht]
  exact ⟨_, rfl, rfl, rfl, rfl, rfl, rfl, rfl, rfl, by simp, hc⟩

/-- `insertCur` preserves well-formedness. -/
theorem insertCur_WF (p : PassState) (name : String) (hit : SymbolHitType)
    (node : NodeRef) (hw : WFState p) : WFState (insertCur p name hit node).2 := by
  obtain ⟨e, _, _, _, _, _, h6, _, _, h9, h10⟩ := insertCur_fields p name hit node hw
  exact ⟨h10, by rw [h6]; exact hw.2.1, fun i hi => by rw [h9]; exact hw.2.2 i (by rwa [h6] at hi)⟩

/-- Reduction of a nested `push_scope` on an uncrashed state. -/
theorem push_scope_nested (p : PassState) (top : Nat) (rest : List Nat)
    (hc : p.crashed = false) (hs : p.stack = top :: rest) :
    push_scope p false =
      { p with tables := p.tables ++ [⟨some top, []⟩],
               stack := p.tables.length :: p.stack } := by
  unfold push_scope
  rw [if_neg (by simp [hc]), if_neg (by simp), hs]

/-- Reduction of `sync_node_to_scope` on an uncrashed state. -/
theorem sync_eq (p : PassState) (node : NodeRef) (top : Nat) (rest : List Nat)
    (hc : p.crashed = false) (hs : p.stack = top :: rest) :
    sync_node_to_scope p node = { p with bindings := p.bindings ++ [(node.nid, top)] } := by
  unfold sync_node_to_scope
  rw [if_neg (by simp [hc]), hs]

/-- The initial state is well formed. -/
theorem before_pass_WF : WFState before_pass :=
  ⟨rfl, by decide, by decide⟩

/-- A well-formed state has a top scope and an arena table behind it. -/
theorem WFState_top (p : PassState) (hw : WFState p) :
    ∃ top rest t, p.stack = top :: rest ∧ p.tables.get? top = some t := by
  obtain ⟨-, hne, hin⟩ := hw
  obtain ⟨top, rest, hs⟩ : ∃ a l, p.stack = a :: l := by
    cases hstk : p.stack with
    | nil => exact absurd hstk hne
    | cons a l => exact ⟨a, l, rfl⟩
  have htop : top < p.tables.length := hin top (by rw [hs]; exact List.mem_cons_self _ _)
  exact ⟨top, rest, _, hs, List.get?_eq_get htop⟩

/-- String append cancels on the right. -/
theorem str_append_right_cancel (a b t : String) (h : a ++ t = b ++ t) : a = b := by
  have h2 : a.data ++ t.data = b.data ++ t.data := by
    have h1 := congrArg String.data h
    simpa [String.data_append] using h1
  exact String.ext (List.append_cancel_right h2)

/-- `pushAndSync` opens a child of the current scope, makes it the active
scope, stamps the node with the new scope, and changes nothing else. -/
theorem pushAndSync_fields (q : PassState) (info : NodeRef) (a : Nat) (l : List Nat)
    (hcq : q.crashed = false) (hsq : q.stack = a :: l) :
    (pushAndSync q info).inserts = q.inserts ∧
    (pushAndSync q info).errors = q.errors ∧
    (pushAndSync q info).crashed = false ∧
    (pushAndSync q info).stack = q.tables.length :: q.stack ∧
    (pushAndSync q info).tables = q.tables ++ [⟨some a, []⟩] ∧
    (pushAndSync q info).bindings = q.bindings ++ [(info.nid, q.tables.length)] := by
  unfold pushAndSync
  rw [push_scope_nested q a l hcq hsq]
  rw [sync_eq _ info q.tables.length q.stack (by exact hcq) rfl]
  exact ⟨rfl, rfl, hcq, rfl, rfl, rfl⟩

/-- `insertAndReport` logs exactly one insert event repeating its
arguments, leaves stack / arena size / bindings alone, does not crash,
and emits the duplicate-binding message exactly when the insert reported
a conflict. -/
theorem insertAndReport_fields (p : PassState) (key typ : String) (hit : SymbolHitType)
    (node : NodeRef) (hw : WFState p) :
    ∃ e : InsertEvent,
      (insertAndReport p key typ hit node).inserts = p.inserts ++ [e] ∧
      e.name = key ∧ e.hit = hit ∧ e.node = node ∧
      e.collide = (insertCur p key hit node).1 ∧
      (insertAndReport p key typ hit node).stack = p.stack ∧
      (insertAndReport p key typ hit node).tables.length = p.tables.length ∧
      (insertAndReport p key typ hit node).bindings = p.bindings ∧
      (insertAndReport p key typ hit node).crashed = false ∧
      ((e.collide = none ∧ (insertAndReport p key typ hit node).errors = p.errors) ∨
       (∃ c, e.collide = some c ∧
          (insertAndReport p key typ hit node).errors
            = p.errors ++ [dupMsg key typ c []])) := by
  obtain ⟨e, h1, h2, h3, h4, h5, h6, h7, h8, h9, h10⟩ := insertCur_fields p key hit node hw
  unfold insertAndReport
  dsimp only
  cases hcol : (insertCur p key hit node).1 with
  | none =>
    exact ⟨e, h1, h2, h3, h4, h5.trans hcol, h6, h9, h8, h10, Or.inl ⟨h5.trans hcol, h7⟩⟩
  | some c =>
    obtain ⟨g1, g2, g3, g4, g5, g6⟩ :=
      already_declared_err_fields (insertCur p key hit node).2 key typ c [] h10
    exact ⟨e, g5.trans h1, h2, h3, h4, h5.trans hcol, g3.trans h6,
      (congrArg List.length g2).trans h9, g4.trans h8, g6,
      Or.inr ⟨c, h5.trans hcol, by rw [g1, h7]⟩⟩

/-- `insertAndReport` preserves well-formedness. -/
theorem insertAndReport_WF (p : PassState) (key typ : String) (hit : SymbolHitType)
    (node : NodeRef) (hw : WFState p) : WFState (insertAndReport p key typ hit node) := by
  obtain ⟨e, h1, h2, h3, h4, h5, h6, h7, h8, h9, h10⟩ :=
    insertAndReport_fields p key typ hit node hw
  exact ⟨h9, by rw [h6]; exact hw.2.1, fun i hi => by rw [h7]; exact hw.2.2 i (by rwa [h6] at hi)⟩

/-- The full scope-owning enter idiom (insert-and-report, push nested,
stamp) opens a child of the previously active scope, makes it active,
logs exactly one insert event against the old scope, and appends at most
its duplicate diagnostic. -/
theorem scope_owner_enter_fields (p : PassState) (key typ : String) (hit : SymbolHitType)
    (node : NodeRef) (idx : Nat) (rest : List Nat)
    (hs : p.stack = idx :: rest) (hw : WFState p) :
    (pushAndSync (insertAndReport p key typ hit node) node).stack
        = p.tables.length :: p.stack ∧
    (pushAndSync (insertAndReport p key typ hit node) node).tables.get? p.tables.length
        = some ⟨some idx, []⟩ ∧
    (pushAndSync (insertAndReport p key typ hit node) node).crashed = false ∧
    (∃ e : InsertEvent,
      (pushAndSync (insertAndReport p key typ hit node) node).inserts = p.inserts ++ [e] ∧
      e.name = key ∧ e.hit = hit ∧ e.node = node ∧
      ∃ tl, (pushAndSync (insertAndReport p key typ hit node) node).errors
        = p.errors ++ tl) := by
  obtain ⟨e, h1, h2, h3, h4, h5, h6, h7, h8, h9, h10⟩ :=
    insertAndReport_fields p key typ hit node hw
  obtain ⟨s1, s2, s3, s4, s5, s6⟩ :=
    pushAndSync_fields (insertAndReport p key typ hit node) node idx rest h9
      (by rw [h6, hs])
  refine ⟨by rw [s4, h6, h7], ?_, s3, e, by rw [s1, h1], h2, h3, h4, ?_⟩
  · rw [s5, ← h7]
    exact (List.get?_eq_getElem? _ _).trans (List.getElem?_concat_length _ _)
  · rcases h10 with ⟨-, herr⟩ | ⟨c, -, herr⟩
    · exact ⟨[], by rw [s2, herr]; simp⟩
    · exact ⟨[dupMsg key typ c []], by rw [s2, herr]⟩

/-- With `single = true` the conflict `insert` reports is exactly the
existing occupant of the name, independently of the kind and node being
inserted. -/
theorem insert_single_conflict (t : SymbolTable) (name : String)
    (hit : SymbolHitType) (node : NodeRef) :
    (t.insert name hit node true).1 = occupantOf t name := by
  unfold SymbolTable.insert
  rw [if_pos rfl]
  cases h : occupantOf t name with
  | none => rfl
  | some c => rfl

/-- Full characterization of one absorption step on a record that has a
declaration or at least one definition: exactly one insert event is
logged (DECL with the declaration node when present, else DEFN with the
last definition node), its reported conflict is exactly the existing
occupant of the importer's active scope, no crash occurs, the stack and
arena size are unchanged, and the duplicate message citing both the
local occupant and the absorbed occurrence is emitted exactly on a
collision. -/
theorem absorbRecord_ok (p : PassState) (k : String) (v : Symbol)
    (hw : WFState p) (hv : v.decl.isSome = true ∨ v.defn ≠ [])
    (top : Nat) (rest : List Nat) (t : SymbolTable)
    (hs : p.stack = top :: rest) (ht : p.tables.get? top = some t) :
    ∃ e : InsertEvent,
      (absorbRecord p k v).inserts = p.inserts ++ [e] ∧
      e.name = k ∧
      e.hit = (if v.decl.isSome then SymbolHitType.DECL else SymbolHitType.DEFN) ∧
      ((∃ dn, v.decl = some dn ∧ e.node = dn) ∨
        (v.decl = none ∧ v.defn.getLast? = some e.node)) ∧
      e.collide = occupantOf t k ∧
      (absorbRecord p k v).crashed = false ∧
      (absorbRecord p k v).stack = p.stack ∧
      (absorbRecord p k v).tables.length = p.tables.length ∧
      ((e.collide = none ∧ (absorbRecord p k v).errors = p.errors) ∨
       (∃ c, e.collide = some c ∧
          (absorbRecord p k v).errors
            = p.errors ++ [dupMsg k "include item" c [e.node]])) := by
  have hc := hw.1
  cases hvd : v.decl with
  | some dn =>
    have hins : absorbInsertNode v = some dn := by simp [absorbInsertNode, hvd]
    have hoth : absorbOtherNode v = some dn := by simp [absorbOtherNode, hvd]
    have hhit : (if v.decl.isSome then SymbolHitType.DECL else SymbolHitType.DEFN)
        = SymbolHitType.DECL := by rw [hvd]; rfl
    unfold absorbRecord
    rw [if_neg (by simp [hc]), hins]
    dsimp only
    rw [hhit]
    obtain ⟨e, h1, h2, h3, h4, h5, h6, h7, h8, h9, h10⟩ :=
      insertCur_fields p k SymbolHitType.DECL dn hw
    have hco : (insertCur p k SymbolHitType.DECL dn).1 = occupantOf t k := by
      rw [insertCur_eq p k SymbolHitType.DECL dn top rest t hc hs ht]
      exact insert_single_conflict t k SymbolHitType.DECL dn
    cases hcol : (insertCur p k SymbolHitType.DECL dn).1 with
    | none =>
      exact ⟨e, h1, h2, h3, Or.inl ⟨dn, rfl, h4⟩, h5.trans hco, h10, h6, h9,
        Or.inl ⟨h5.trans hcol, h7⟩⟩
    | some c =>
      rw [hoth]
      obtain ⟨g1, g2, g3, g4, g5, g6⟩ :=
        already_declared_err_fields (insertCur p k SymbolHitType.DECL dn).2
          k "include item" c [dn] h10
      exact ⟨e, g5.trans h1, h2, h3, Or.inl ⟨dn, rfl, h4⟩, h5.trans hco, g6, g3.trans h6,
        (congrArg List.length g2).trans h9,
        Or.inr ⟨c, h5.trans hcol, by rw [g1, h7, h4]⟩⟩
  | none =>
    have hdefn : v.defn ≠ [] := by
      rcases hv with h | h
      · rw [hvd] at h; cases h
      · exact h
    obtain ⟨dn, hgl⟩ : ∃ dn, v.defn.getLast? = some dn := by
      cases hgl : v.defn.getLast? with
      | some dn => exact ⟨dn, rfl⟩
      | none =>
        exact absurd (by simpa using congrArg Option.isSome hgl)
          (by simpa using List.getLast?_isSome.mpr hdefn)
    have hins : absorbInsertNode v = some dn := by simp [absorbInsertNode, hvd, hgl]
    have hoth : absorbOtherNode v = some dn := by
      unfold absorbOtherNode
      rw [hvd]
      dsimp only
      rw [if_pos (by simpa using hdefn), hgl]
    have hhit : (if v.decl.isSome then SymbolHitType.DECL else SymbolHitType.DEFN)
        = SymbolHitType.DEFN := by rw [hvd]; rfl
    unfold absorbRecord
    rw [if_neg (by simp [hc]), hins]
    dsimp only
    rw [hhit]
    obtain ⟨e, h1, h2, h3, h4, h5, h6, h7, h8, h9, h10⟩ :=
      insertCur_fields p k SymbolHitType.DEFN dn hw
    have hco : (insertCur p k SymbolHitType.DEFN dn).1 = occupantOf t k := by
      rw [insertCur_eq p k SymbolHitType.DEFN dn top rest t hc hs ht]
      exact insert_single_conflict t k SymbolHitType.DEFN dn
    cases hcol : (insertCur p k SymbolHitType.DEFN dn).1 with
    | none =>
      exact ⟨e, h1, h2, h3, Or.inr ⟨rfl, by rw [hgl, h4]⟩, h5.trans hco, h10, h6, h9,
        Or.inl ⟨h5.trans hcol, h7⟩⟩
    | some c =>
      rw [hoth]
      obtain ⟨g1, g2, g3, g4, g5, g6⟩ :=
        already_declared_err_fields (insertCur p k SymbolHitType.DEFN dn).2
          k "include item" c [dn] h10
      exact ⟨e, g5.trans h1, h2, h3, Or.inr ⟨rfl, by rw [hgl, h4]⟩, h5.trans hco, g6, g3.trans h6,
        (congrArg List.length g2).trans h9,
        Or.inr ⟨c, h5.trans hcol, by rw [g1, h7, h4]⟩⟩

/-- One absorption step on a record with neither declaration nor
definition raises the unguarded `v.defn[-1]` IndexError. -/
theorem absorbRecord_crash (p : PassState) (k : String) (v : Symbol)
    (hc : p.crashed = false) (h1 : v.decl = none) (h2 : v.defn = []) :
    absorbRecord p k v = { p with crashed := true } := by
  have hins : absorbInsertNode v = none := by simp [absorbInsertNode, h1, h2]
  unfold absorbRecord
  rw [if_neg (by simp [hc]), hins]

/-- A crashed state is frozen by an absorption step. -/
theorem absorbRecord_frozen (p : PassState) (k : String) (v : Symbol)
    (hc : p.crashed = true) : absorbRecord p k v = p := by
  unfold absorbRecord
  rw [if_pos hc]

/-- A crashed state is frozen by the whole absorption loop. -/
theorem absorbAll_frozen (tab : List (String × Symbol)) (p : PassState)
    (hc : p.crashed = true) : absorbAll p tab = p := by
  induction tab generalizing p with
  | nil => rfl
  | cons kv rest ih =>
    show absorbAll (absorbRecord p kv.1 kv.2) rest = p
    rw [absorbRecord_frozen p kv.1 kv.2 hc]
    exact ih p hc

/-- `absorbRecord` preserves well-formedness on a well-occupied record. -/
theorem absorbRecord_WF (p : PassState) (k : String) (v : Symbol)
    (hw : WFState p) (hv : v.decl.isSome = true ∨ v.defn ≠ []) :
    WFState (absorbRecord p k v) := by
  obtain ⟨top, rest, t, hs, ht⟩ := WFState_top p hw
  obtain ⟨e, -, -, -, -, -, h5, h6, h7, -⟩ := absorbRecord_ok p k v hw hv top rest t hs ht
  exact ⟨h5, by rw [h6]; exact hw.2.1,
    fun i hi => by rw [h7]; exact hw.2.2 i (by rwa [h6] at hi)⟩

/-- The absorption loop completes uncrashed exactly when every absorbed
record carries a declaration or at least one definition. -/
theorem absorbAll_crash_iff (tab : List (String × Symbol)) (p : PassState)
    (hw : WFState p) :
    (absorbAll p tab).crashed = false ↔
      ∀ kv ∈ tab, (kv.2 : Symbol).decl.isSome = true ∨ (kv.2 : Symbol).defn ≠ [] := by
  induction tab generalizing p with
  | nil => simpa [absorbAll] using hw.1
  | cons kv rest ih =>
    have hstep : absorbAll p (kv :: rest) = absorbAll (absorbRecord p kv.1 kv.2) rest := rfl
    by_cases hpre : kv.2.decl.isSome = true ∨ kv.2.defn ≠ []
    · rw [hstep, ih _ (absorbRecord_WF p kv.1 kv.2 hw hpre)]
      constructor
      · intro h kv2 hm
        rcases List.mem_cons.mp hm with he | hm2
        · rw [he]; exact hpre
        · exact h kv2 hm2
      · intro h kv2 hm2
        exact h kv2 (List.mem_cons_of_mem _ hm2)
    · push_neg at hpre
      have hd : kv.2.decl = none := by
        have := hpre.1
        cases hvd : kv.2.decl with
        | none => rfl
        | some dn => rw [hvd] at this; exact absurd rfl this
      rw [hstep, absorbRecord_crash p kv.1 kv.2 hw.1 hd hpre.2,
        absorbAll_frozen rest _ rfl]
      constructor
      · intro h; cases h
      · intro h
        exact absurd (h kv (List.mem_cons_self _ _)) (by rw [hd]; simp [hpre.2])

end Lemmas

/-- C1: the stack-balance invariant fails on the code.  `enter_enum`
pushes a scope but the source defines no `exit_enum`, so for a module
whose body is one enum declaration the traversal ends with the scope
stack holding two entries instead of returning to its single initial
entry, with no crash and no diagnostic. -/
theorem enum_scope_never_popped :
    before_pass.stack.length = 1 ∧
    (runPass enumOnlyModule).crashed = false ∧
    (runPass enumOnlyModule).errors = [] ∧
    (runPass enumOnlyModule).stack.length = 2 := by decide

/-- C2 counterexample: `pop_scope` is a bare list pop; applied to the
initial single-entry stack it succeeds without any invariant failure and
silently leaves the stack with zero entries, contradicting the claim
that a pop emptying the stack fails. -/
theorem pop_scope_silently_empties :
    before_pass.stack.length = 1 ∧
    (pop_scope before_pass).crashed = false ∧
    (pop_scope before_pass).stack = [] := by decide

/-- C2 amended: `pop_scope` discards the top of the scope stack,
restoring the previous active scope; it fails only when the stack is
already empty before the pop — a pop that leaves the stack empty
succeeds silently. -/
theorem pop_scope_behaviour (p : PassState) (hc : p.crashed = false) :
    (p.stack = [] → (pop_scope p).crashed = true) ∧
    (∀ t rest, p.stack = t :: rest →
      (pop_scope p).stack = rest ∧ (pop_scope p).crashed = false ∧
      (pop_scope p).tables = p.tables) := by
  unfold pop_scope
  rw [if_neg (by simp [hc])]
  constructor
  · intro h; rw [h]
  · intro t rest h; rw [h]; exact ⟨rfl, hc, rfl⟩

/-- Witness for `pop_scope_behaviour` at a concrete two-entry stack. -/
theorem pop_scope_behaviour_witness :
    (pop_scope twoEntryState).stack = [0] ∧ (pop_scope twoEntryState).crashed = false ∧
    (pop_scope twoEntryState).tables = twoEntryState.tables :=
  (pop_scope_behaviour twoEntryState rfl).2 1 [0] rfl

/-- C3 counterexample: for an out-of-body ability definition whose
target's last segment is not an architype reference, the pass does
report the structural error, but the key used for the insertion is
".talk" — the empty owner followed by a dot and the simple name — not
the unqualified simple name "talk" the claim states. -/
theorem ability_def_fallback_counterexample :
    (enter_ability_def before_pass badTargetInfo badTargetData).errors =
      ["Expected reference to Architype!"] ∧
    (enter_ability_def before_pass badTargetInfo badTargetData).inserts.map
        (fun e => e.name) = [".talk"] ∧
    (".talk" : String) ≠ "talk" := by decide

/-- C3 amended: for every out-of-body ability definition whose explicit
dotted target path's last segment does not resolve to an architype
reference, the pass reports the structural error "Expected reference to
Architype!" and the symbol-table key used for the insertion falls back
to "." prepended to the ability's unqualified simple name (the empty
owner is still joined with the dot). -/
theorem ability_def_bad_target_key (p : PassState) (info : NodeRef) (d : AbilityDefData)
    (names : List TargetElem) (hw : WFState p)
    (ht : d.target = some names) (hlast : names.getLast? = some .otherName) :
    ∃ e : InsertEvent, ∃ tl : List String,
      (enter_ability_def p info d).errors
        = p.errors ++ ["Expected reference to Architype!"] ++ tl ∧
      (enter_ability_def p info d).inserts = p.inserts ++ [e] ∧
      e.name = "." ++ d.abilityResolved ∧ e.hit = SymbolHitType.DEFN ∧
      (enter_ability_def p info d).crashed = false := by
  obtain ⟨hc, hne, hin⟩ := hw
  obtain ⟨idx, rest, hs⟩ : ∃ a l, p.stack = a :: l := by
    cases hstk : p.stack with
    | nil => exact absurd hstk hne
    | cons a l => exact ⟨a, l, rfl⟩
  unfold enter_ability_def
  rw [if_neg (by simp [hc]), ht]
  dsimp only
  rw [hlast]
  obtain ⟨a1, a2, a3, a4, a5, a6⟩ :=
    errAdd_fields p "Expected reference to Architype!" hc
  have hwq : WFState (errAdd p "Expected reference to Architype!") :=
    ⟨a6, by rw [a3]; exact hne, fun i hi => by rw [a2]; exact hin i (by rwa [a3] at hi)⟩
  unfold abilityDefInsert
  obtain ⟨g1, g2, g3, e, g4, g5, g6, g7, tl, g8⟩ :=
    scope_owner_enter_fields (errAdd p "Expected reference to Architype!")
      ("" ++ "." ++ d.abilityResolved) "ability def" .DEFN info idx rest
      (by rw [a3, hs]) hwq
  refine ⟨e, tl, ?_, by rw [g4, a5], ?_, g6, g3⟩
  · rw [g8, a1]
  · have hq : ("" ++ "." : String) = "." := rfl
    rw [g5, hq]

/-- Witness for `ability_def_bad_target_key` at the concrete bad-target
definition. -/
theorem ability_def_bad_target_key_witness :
    ∃ e : InsertEvent, ∃ tl : List String,
      (enter_ability_def before_pass badTargetInfo badTargetData).errors
        = before_pass.errors ++ ["Expected reference to Architype!"] ++ tl ∧
      (enter_ability_def before_pass badTargetInfo badTargetData).inserts
        = before_pass.inserts ++ [e] ∧
      e.name = "." ++ badTargetData.abilityResolved ∧ e.hit = SymbolHitType.DEFN ∧
      (enter_ability_def before_pass badTargetInfo badTargetData).crashed = false :=
  ability_def_bad_target_key before_pass badTargetInfo badTargetData [.otherName]
    before_pass_WF rfl rfl

/-- C4: an ability lexically attached inside a type's body is keyed as
the owning type's name, a dot, and the resolved simple name; otherwise
the key is the resolved simple name alone; and same-named abilities in
two differently named types receive distinct keys. -/
theorem ability_key_qualification :
    (∀ d : AbilityData, ∀ nm, d.arch_attached = some (.arch nm) →
      resolve_ability_symtab_name d = nm ++ "." ++ d.resolvedName) ∧
    (∀ d : AbilityData, (∀ nm, d.arch_attached ≠ some (.arch nm)) →
      resolve_ability_symtab_name d = d.resolvedName) ∧
    (∀ d1 d2 : AbilityData, ∀ n1 n2,
      d1.arch_attached = some (.arch n1) → d2.arch_attached = some (.arch n2) →
      n1 ≠ n2 → d1.resolvedName = d2.resolvedName →
      resolve_ability_symtab_name d1 ≠ resolve_ability_symtab_name d2) := by
  have key : ∀ d : AbilityData, ∀ nm, d.arch_attached = some (.arch nm) →
      resolve_ability_symtab_name d = nm ++ "." ++ d.resolvedName := by
    intro d nm h
    unfold resolve_ability_symtab_name
    rw [h]
  refine ⟨key, ?_, ?_⟩
  · intro d h
    unfold resolve_ability_symtab_name
    cases hd : d.arch_attached with
    | none => rfl
    | some pn =>
      cases pn with
      | arch nm => exact absurd hd (h nm)
      | otherParent => rfl
  · intro d1 d2 n1 n2 h1 h2 hne hsame heq
    rw [key d1 n1 h1, key d2 n2 h2, hsame] at heq
    exact hne (str_append_right_cancel _ _ _ (str_append_right_cancel _ _ _ heq))

/-- Witness for `ability_key_qualification`: `init` inside `Foo` is keyed
"Foo.init", a detached ability keeps its bare name, and `init` inside
`Bar` gets a different key. -/
theorem ability_key_qualification_witness :
    resolve_ability_symtab_name ⟨"init", some (.arch "Foo")⟩ = "Foo" ++ "." ++ "init" ∧
    resolve_ability_symtab_name ⟨"bare", none⟩ = "bare" ∧
    resolve_ability_symtab_name ⟨"init", some (.arch "Foo")⟩ ≠
      resolve_ability_symtab_name ⟨"init", some (.arch "Bar")⟩ :=
  ⟨ability_key_qualification.1 ⟨"init", some (.arch "Foo")⟩ "Foo" rfl,
   ability_key_qualification.2.1 ⟨"bare", none⟩ (fun nm h => by simp at h),
   ability_key_qualification.2.2 _ _ "Foo" "Bar" rfl rfl (by decide) rfl⟩

/-- C7: an absorb import whose sub-module failed to resolve produces
exactly one structural error and performs no insertion, leaving the
arena, the scope stack and the insert log untouched. -/
theorem unresolved_absorb_one_error (p : PassState) (info : NodeRef) (d : ImportData)
    (hw : WFState p) (ha : d.is_absorb = true) (hm : d.sub_module_tab = none) :
    (exit_import p info d).errors = p.errors ++ [notFoundMsg d.path_str] ∧
    (exit_import p info d).inserts = p.inserts ∧
    (exit_import p info d).tables = p.tables ∧
    (exit_import p info d).stack = p.stack ∧
    (exit_import p info d).crashed = false := by
  obtain ⟨hc, hne, -⟩ := hw
  obtain ⟨a, l, hs⟩ : ∃ a l, p.stack = a :: l := by
    cases hstk : p.stack with
    | nil => exact absurd hstk hne
    | cons a l => exact ⟨a, l, rfl⟩
  unfold exit_import
  rw [if_pos ha, hm]
  dsimp only
  obtain ⟨a1, a2, a3, a4, a5, a6⟩ := errAdd_fields p (notFoundMsg d.path_str) hc
  rw [sync_eq _ info a l a6 (by rw [a3, hs])]
  exact ⟨a1, a5, a2, a3, a6⟩

/-- Witness for `unresolved_absorb_one_error` at a concrete unresolved
absorb import. -/
theorem unresolved_absorb_one_error_witness :
    (exit_import before_pass ⟨5, 3, some "m.jac"⟩ unresolvedAbsorb).errors
      = before_pass.errors ++ [notFoundMsg unresolvedAbsorb.path_str] ∧
    (exit_import before_pass ⟨5, 3, some "m.jac"⟩ unresolvedAbsorb).inserts
      = before_pass.inserts ∧
    (exit_import before_pass ⟨5, 3, some "m.jac"⟩ unresolvedAbsorb).tables
      = before_pass.tables ∧
    (exit_import before_pass ⟨5, 3, some "m.jac"⟩ unresolvedAbsorb).stack
      = before_pass.stack ∧
    (exit_import before_pass ⟨5, 3, some "m.jac"⟩ unresolvedAbsorb).crashed = false :=
  unresolved_absorb_one_error before_pass ⟨5, 3, some "m.jac"⟩ unresolvedAbsorb
    before_pass_WF rfl rfl

/-- C9: entering an out-of-body type-implementation block (`ArchDef`) or
enum-implementation block (`EnumDef`) pushes no scope and inserts no
symbol — the stack, the arena, the insert log and the diagnostics are
unchanged, the node being only stamped with the active scope — whereas
entering the corresponding type or enum declaration opens a nested scope
whose parent is the previously active one. -/
theorem impl_blocks_scope_neutral (p : PassState) (info info2 : NodeRef)
    (nm1 nm2 : String) (idx : Nat) (rest : List Nat)
    (hs : p.stack = idx :: rest) (hw : WFState p) :
    (enter_arch_def p info).stack = p.stack ∧
    (enter_arch_def p info).tables = p.tables ∧
    (enter_arch_def p info).inserts = p.inserts ∧
    (enter_arch_def p info).errors = p.errors ∧
    (enter_arch_def p info).bindings = p.bindings ++ [(info.nid, idx)] ∧
    (enter_enum_def p info2).stack = p.stack ∧
    (enter_enum_def p info2).tables = p.tables ∧
    (enter_enum_def p info2).inserts = p.inserts ∧
    (enter_enum_def p info2).errors = p.errors ∧
    (enter_enum_def p info2).bindings = p.bindings ++ [(info2.nid, idx)] ∧
    (enter_architype p info nm1).stack = p.tables.length :: p.stack ∧
    (enter_architype p info nm1).tables.get? p.tables.length = some ⟨some idx, []⟩ ∧
    (enter_enum p info2 nm2).stack = p.tables.length :: p.stack ∧
    (enter_enum p info2 nm2).tables.get? p.tables.length = some ⟨some idx, []⟩ := by
  have hc := hw.1
  have h1 := sync_eq p info idx rest hc hs
  have h2 := sync_eq p info2 idx rest hc hs
  obtain ⟨b1, b2, b3, b4⟩ :=
    (scope_owner_enter_fields p nm1 "architype" .DECL info idx rest hs hw)
  obtain ⟨c1, c2, c3, c4⟩ :=
    (scope_owner_enter_fields p nm2 "enum" .DECL info2 idx rest hs hw)
  refine ⟨?_, ?_, ?_, ?_, ?_, ?_, ?_, ?_, ?_, ?_, ?_, ?_, ?_, ?_⟩
  · unfold enter_arch_def; rw [h1]
  · unfold enter_arch_def; rw [h1]
  · unfold enter_arch_def; rw [h1]
  · unfold enter_arch_def; rw [h1]
  · unfold enter_arch_def; rw [h1]
  · unfold enter_enum_def; rw [h2]
  · unfold enter_enum_def; rw [h2]
  · unfold enter_enum_def; rw [h2]
  · unfold enter_enum_def; rw [h2]
  · unfold enter_enum_def; rw [h2]
  · unfold enter_architype; exact b1
  · unfold enter_architype; exact b2
  · unfold enter_enum; exact c1
  · unfold enter_enum; exact c2

/-- Witness for `impl_blocks_scope_neutral` at the initial state. -/
theorem impl_blocks_scope_neutral_witness :
    (enter_arch_def before_pass ⟨8, 4, some "m.jac"⟩).stack = before_pass.stack ∧
    (enter_enum_def before_pass ⟨9, 5, some "m.jac"⟩).tables = before_pass.tables ∧
    (enter_architype before_pass ⟨8, 4, some "m.jac"⟩ "T").stack
      = before_pass.tables.length :: before_pass.stack ∧
    (enter_enum before_pass ⟨9, 5, some "m.jac"⟩ "E").tables.get?
        before_pass.tables.length = some ⟨some 0, []⟩ := by
  obtain ⟨w1, -, -, -, -, -, w7, -, -, -, w11, -, -, w14⟩ :=
    impl_blocks_scope_neutral before_pass ⟨8, 4, some "m.jac"⟩ ⟨9, 5, some "m.jac"⟩
      "T" "E" 0 [] rfl before_pass_WF
  exact ⟨w1, w7, w11, w14⟩

/-- C5: the ability `talk` declared inside type `Foo` and the out-of-body
definition targeting `Foo.talk` produce exactly one DECLARATION
insertion and one DEFINITION insertion under the key "Foo.talk", both
conflict-free, and the pass reports no diagnostic. -/
theorem decl_def_pair_no_conflict :
    (runPass fooTalkModule).crashed = false ∧
    (runPass fooTalkModule).errors = [] ∧
    ((runPass fooTalkModule).inserts.filter (fun e => e.name == "Foo.talk")).map
        (fun e => (e.hit, e.collide))
      = [(SymbolHitType.DECL, none), (SymbolHitType.DEFN, none)] := by decide

/-- C6: on absorbing a resolved sub-module, every record with an
occurrence is re-inserted into the importer's active scope under the
uniqueness contract — kind DECLARATION with the record's declaration
node when it has one, else DEFINITION with its last definition node;
the reported conflict is exactly the existing occupant of the name in
the active scope (its prior declaration if set, else its most recent
definition, `none` when the name is absent), and every collision is
reported against that occupant, supplemented with the absorbed symbol's
occurrence so both sites are cited. -/
theorem absorb_reinsert_contract (p : PassState) (k : String) (v : Symbol)
    (top : Nat) (rest : List Nat) (t : SymbolTable)
    (hw : WFState p) (hv : v.decl.isSome = true ∨ v.defn ≠ [])
    (hs : p.stack = top :: rest) (ht : p.tables.get? top = some t) :
    ∃ e : InsertEvent,
      (absorbRecord p k v).inserts = p.inserts ++ [e] ∧
      e.name = k ∧
      e.hit = (if v.decl.isSome then SymbolHitType.DECL else SymbolHitType.DEFN) ∧
      ((∃ dn, v.decl = some dn ∧ e.node = dn) ∨
        (v.decl = none ∧ v.defn.getLast? = some e.node)) ∧
      e.collide = occupantOf t k ∧
      (absorbRecord p k v).crashed = false ∧
      ((e.collide = none ∧ (absorbRecord p k v).errors = p.errors) ∨
       (∃ c, e.collide = some c ∧
          (absorbRecord p k v).errors
            = p.errors ++ [dupMsg k "include item" c [e.node]])) := by
  obtain ⟨e, h1, h2, h3, h4, h5, h6, -, -, h9⟩ :=
    absorbRecord_ok p k v hw hv top rest t hs ht
  exact ⟨e, h1, h2, h3, h4, h5, h6, h9⟩

/-- Witness for `absorb_reinsert_contract` absorbing a declaration-only
record into the initial state, whose single table is empty. -/
theorem absorb_reinsert_contract_witness :
    ∃ e : InsertEvent,
      (absorbRecord before_pass "x" declOnlyRecord).inserts
        = before_pass.inserts ++ [e] ∧
      e.name = "x" ∧
      e.hit = (if declOnlyRecord.decl.isSome then SymbolHitType.DECL
               else SymbolHitType.DEFN) ∧
      ((∃ dn, declOnlyRecord.decl = some dn ∧ e.node = dn) ∨
        (declOnlyRecord.decl = none ∧ declOnlyRecord.defn.getLast? = some e.node)) ∧
      e.collide = occupantOf ⟨none, []⟩ "x" ∧
      (absorbRecord before_pass "x" declOnlyRecord).crashed = false ∧
      ((e.collide = none ∧
          (absorbRecord before_pass "x" declOnlyRecord).errors = before_pass.errors) ∨
       (∃ c, e.collide = some c ∧
          (absorbRecord before_pass "x" declOnlyRecord).errors
            = before_pass.errors ++ [dupMsg "x" "include item" c [e.node]])) :=
  absorb_reinsert_contract before_pass "x" declOnlyRecord 0 [] ⟨none, []⟩
    before_pass_WF (Or.inl rfl) rfl rfl

/-- C10: the node the absorption loop hands to `insert` is the record's
declaration when present and otherwise the last element of its
definitions list, taken without an emptiness guard — while the
error-reporting path's guarded computation yields the value `none`
instead of raising — so one step crashes exactly on a record with
neither occurrence, and the whole loop runs without out-of-bounds
access precisely when every absorbed record carries a declaration or at
least one definition. -/
theorem absorb_missing_occurrence_guard (p : PassState) (hw : WFState p) :
    (∀ v : Symbol, ∀ dn, v.decl = some dn → absorbInsertNode v = some dn) ∧
    (∀ v : Symbol, v.decl = none → absorbInsertNode v = v.defn.getLast?) ∧
    (∀ v : Symbol, v.decl = none → v.defn = [] →
      absorbInsertNode v = none ∧ absorbOtherNode v = none) ∧
    (∀ k : String, ∀ v : Symbol,
      ((absorbRecord p k v).crashed = false ↔
        (v.decl.isSome = true ∨ v.defn ≠ []))) ∧
    (∀ tab : List (String × Symbol),
      ((absorbAll p tab).crashed = false ↔
        ∀ kv ∈ tab, (kv.2 : Symbol).decl.isSome = true ∨ (kv.2 : Symbol).defn ≠ [])) := by
  refine ⟨?_, ?_, ?_, ?_, fun tab => absorbAll_crash_iff tab p hw⟩
  · intro v dn h; simp [absorbInsertNode, h]
  · intro v h; simp [absorbInsertNode, h]
  · intro v h1 h2
    exact ⟨by simp [absorbInsertNode, h1, h2], by simp [absorbOtherNode, h1, h2]⟩
  · intro k v
    constructor
    · intro hnc
      by_contra hpre
      push_neg at hpre
      have hd : v.decl = none := by
        have := hpre.1
        cases hvd : v.decl with
        | none => rfl
        | some dn => rw [hvd] at this; exact absurd rfl this
      rw [absorbRecord_crash p k v hw.1 hd hpre.2] at hnc
      cases hnc
    · intro hpre
      obtain ⟨top, rest, t, hs, ht⟩ := WFState_top p hw
      obtain ⟨e, -, -, -, -, -, h5, -⟩ := absorbRecord_ok p k v hw hpre top rest t hs ht
      exact h5

/-- Witness for `absorb_missing_occurrence_guard`: the crash
characterization at an empty record in the initial state. -/
theorem absorb_missing_occurrence_guard_witness :
    (absorbRecord before_pass "y" ⟨none, []⟩).crashed = false ↔
      ((⟨none, []⟩ : Symbol).decl.isSome = true ∨ (⟨none, []⟩ : Symbol).defn ≠ []) :=
  (absorb_missing_occurrence_guard before_pass before_pass_WF).2.2.2.1 "y" ⟨none, []⟩

/-- C8: two global-variable declarations named `x` in one module body
yield exactly one duplicate-binding diagnostic whose message carries the
name, the label "global var", and the module path and line of the first
occurrence; the first insertion succeeds and the second is the one
rejected, its reported occupant being the first assignment node. -/
theorem duplicate_global_var_diagnostic :
    (runPass dupGlobalsModule).errors =
      ["Name used for global var " ++ quoteStr ++ "x" ++ quoteStr ++
        " already declared at m.jac, line 1"] ∧
    (runPass dupGlobalsModule).inserts.map (fun e => (e.name, e.hit, e.collide)) =
      [("x", SymbolHitType.DECL, none),
       ("x", SymbolHitType.DECL, some ⟨2, 1, some "m.jac"⟩)] ∧
    (runPass dupGlobalsModule).crashed = false := by decide

end JacPass
